import Mathlib

/-!
Verification development for the chapter5 school-regulation checkers
(`parking_checker.py`, `floors_checker.py`, `class_count_checker.py`,
`app_ch5.py`).

The Python modules derive facts from a building model (unit scale,
footprint areas, owning storeys) and evaluate three compliance rules
(classroom count, classroom floor distribution, parking capacity).
Below, each Python function relevant to the frozen claims is shallowly
embedded as a Lean definition: Python floats are modelled as `ℚ` (and as
`ℝ` where the polygon-union area requires a measure), `None`/value
results as `Option`, and the model entities as explicit records.
Definitions keep the Python names where Lean permits.
-/

open MeasureTheory

open scoped ENNReal

/- ------------------------------------------------------------------ -/
/- Area resolution (`parking_checker.py`, `area_for_id`, lines 214-220) -/
/- ------------------------------------------------------------------ -/

/-- Embedding of `area_for_id` (parking_checker.py lines 214-220).
`geomA` is the result of `_space_geom_area_m2` and `fallbackA` the result
of `_fallback_space_area_m2` for the same space.  The Python body is
`a = _space_geom_area_m2(...)`; `if a and a > 0: return a`;
`return _fallback_space_area_m2(s)`.  A `None` (falsy) or non-positive
(`a > 0` fails; `a == 0.0` is also falsy) geometric result falls through
to the fallback. -/
def area_for_id (geomA fallbackA : Option ℚ) : Option ℚ :=
  match geomA with
  | some a => if 0 < a then some a else fallbackA
  | none => fallbackA

/- ------------------------------------------------------------------ -/
/- Unit scale (`parking_checker.py`, `_detect_length_scale_meters`,     -/
/- lines 59-83)                                                         -/
/- ------------------------------------------------------------------ -/

/-- One entry of `IfcUnitAssignment.Units` as seen by
`_detect_length_scale_meters`: `isLength` models the test
`str(UnitType).upper().endswith("LENGTHUNIT")`, `name` models
`str(getattr(u, "Name", "METRE")).upper()` and `pref` models
`str(getattr(u, "Prefix", "") or "").upper()` (both already
upper-cased strings). -/
structure UnitRec where
  isLength : Bool
  name : String
  pref : String
deriving Repr, DecidableEq

/-- Embedding of the name/prefix dispatch inside the loop of
`_detect_length_scale_meters` (lines 70-80).  In Python a metre name
with an unrecognised prefix falls past the metre block, fails the
`FOOT`/`FEET` test (its name is a metre name) and continues the loop;
here that is `none`.  The `FOOT`/`FEET` branch returns `0.3048`
regardless of the prefix, exactly as in the source. -/
def lengthTable (nm pref : String) : Option ℚ :=
  if nm = "METRE" ∨ nm = "METRES" ∨ nm = "METER" ∨ nm = "METERS" then
    if pref = "" ∨ pref = "UNIT" then some 1
    else if pref = "MILLI" then some (1/1000)
    else if pref = "CENTI" then some (1/100)
    else if pref = "DECI" then some (1/10)
    else none
  else if nm = "FOOT" ∨ nm = "FEET" then some (3048/10000)
  else none

/-- Embedding of the `for u in ua.Units` loop of
`_detect_length_scale_meters` (lines 65-81): the first length unit whose
(name, prefix) pair hits the table decides the scale; all other units
are skipped; a loop that finds nothing yields `1.0` (line 81). -/
def scanUnits : List UnitRec → ℚ
  | [] => 1
  | u :: rest =>
    if u.isLength then
      match lengthTable u.name u.pref with
      | some s => s
      | none => scanUnits rest
    else scanUnits rest

/-- Embedding of `_detect_length_scale_meters` (lines 59-83).  `uas`
models `ifc.by_type("IfcUnitAssignment")` with each assignment reduced
to its `Units` list; an empty query result returns `1.0` (line 63),
otherwise only `uas[0]` is scanned (line 64).  The `except` branch
(line 83) also returns `1.0` and is subsumed by the empty case. -/
def detect_length_scale_meters (uas : List (List UnitRec)) : ℚ :=
  match uas with
  | [] => 1
  | ua :: _ => scanUnits ua

/- ------------------------------------------------------------------ -/
/- Parking rule (`parking_checker.py`, `render_parking_checker`,        -/
/- lines 240-253)                                                       -/
/- ------------------------------------------------------------------ -/

/-- Embedding of `REQ_PER_STAFF = 1/3.0` (line 183). -/
def REQ_PER_STAFF : ℚ := 1/3

/-- Embedding of `SLOT_AREA = 21.0` (line 184). -/
def SLOT_AREA : ℚ := 21

/-- Quantities computed by `render_parking_checker` at lines 240-253 and
shown in the verdict messages at lines 255-271. -/
structure ParkingVerdict where
  totalArea : ℚ
  slotsRaw : ℚ
  slotsInt : ℤ
  reqSlots : ℤ
  ok : Bool
  shortSlots : ℤ
  shortArea : ℚ
deriving Repr, DecidableEq

/-- Embedding of `total_area = sum(r["Area (m²)"] or 0.0 for r in rows)`
(line 240): `areas` is the `Area` column of the matched parking rows,
`none` for a row whose area is unknown; `x or 0.0` equals `x.getD 0`
(it maps both `None` and `0.0` to `0.0`). -/
def total_area_of (areas : List (Option ℚ)) : ℚ :=
  (areas.map (fun a => a.getD 0)).sum

/-- Embedding of the verdict computation of `render_parking_checker`,
lines 240-253: `slots_raw`, `slots_int = int(math.floor(slots_raw))`,
`req_slots = int(math.ceil(staff_count * REQ_PER_STAFF))`,
`ok = slots_raw >= req_slots`, `short_slots`, `short_area`. -/
def render_parking (areas : List (Option ℚ)) (staff : ℕ) : ParkingVerdict :=
  let total := total_area_of areas
  let slotsRaw : ℚ := if 0 < total then total / SLOT_AREA else 0
  let slotsInt : ℤ := ⌊slotsRaw⌋
  let reqSlots : ℤ := ⌈(staff : ℚ) * REQ_PER_STAFF⌉
  { totalArea := total
    slotsRaw := slotsRaw
    slotsInt := slotsInt
    reqSlots := reqSlots
    ok := decide ((reqSlots : ℚ) ≤ slotsRaw)
    shortSlots := max 0 (reqSlots - slotsInt)
    shortArea := max 0 ((reqSlots : ℚ) * SLOT_AREA - total) }

/- ------------------------------------------------------------------ -/
/- Floor-distribution rule (`floors_checker.py`,                        -/
/- `render_floors_with_classrooms`, lines 107-142)                      -/
/- ------------------------------------------------------------------ -/

/-- Leading- and trailing-whitespace removal on a character list, the
embedding of Python's `str.strip()`. -/
def stripChars (cs : List Char) : List Char :=
  ((cs.dropWhile Char.isWhitespace).reverse.dropWhile Char.isWhitespace).reverse

/-- Embedding of `_norm` (floors_checker.py line 14, and the `casefold`
variant at class_count_checker.py lines 35-36): strip surrounding
whitespace, then lower-case.  The result is kept as a character list so
that all string operations reduce by computation. -/
def normChars (s : String) : List Char :=
  (stripChars s.toList).map Char.toLower

/-- Boolean test that `nd` occurs at the head of `hay`, used to express
the Python substring operator on the character lists of two strings. -/
def leadsWith : List Char → List Char → Bool
  | [], _ => true
  | _ :: _, [] => false
  | a :: as, b :: bs => a = b && leadsWith as bs

/-- Boolean test that `nd` occurs contiguously somewhere in `hay`,
the embedding of Python's `nd in hay` substring test. -/
def containsSeq (nd : List Char) : List Char → Bool
  | [] => nd.isEmpty
  | c :: rest => leadsWith nd (c :: rest) || containsSeq nd rest

/-- One `IfcSpace` as consumed by the loop at floors_checker.py lines
107-130: `longName` models `_prefer_longname(sp)` and `storeyName`
models the resolved storey display name, `none` when
`_storey_of_space(sp)` returned `None`. -/
structure FSpace where
  longName : String
  storeyName : Option String
deriving Repr, DecidableEq

/-- Embedding of the match test `"classroom" in _norm(longname)`
(line 109). -/
def isClassroomSpace (sp : FSpace) : Bool :=
  containsSeq "classroom".toList (normChars sp.longName)

/-- Embedding of
`stname = _prefer_storey_name(strobj) if strobj else "(No storey)"`
(line 119). -/
def storeyLabel (sp : FSpace) : String := sp.storeyName.getD "(No storey)"

/-- Embedding of the `storey_names` set built by the loop at lines
107-130: the distinct storey labels of the spaces matching the
classroom test, as a duplicate-free list. -/
def classroom_levels (spaces : List FSpace) : List String :=
  ((spaces.filter isClassroomSpace).map storeyLabel).dedup

/-- Verdict data of `render_floors_with_classrooms` lines 133-142:
`count_levels = len(levels)`, the pass test `count_levels <= max_allowed`
(line 139) and the failure figure `count_levels - max_allowed`
(line 142). -/
structure FloorsVerdict where
  countLevels : ℕ
  passed : Bool
  excess : ℤ
deriving Repr, DecidableEq

/-- Embedding of the verdict computation of
`render_floors_with_classrooms` (lines 132-142). -/
def render_floors (spaces : List FSpace) (maxAllowed : ℕ) : FloorsVerdict :=
  let lv := classroom_levels spaces
  { countLevels := lv.length
    passed := decide (lv.length ≤ maxAllowed)
    excess := (lv.length : ℤ) - (maxAllowed : ℤ) }

/-- Distinct storey labels of the classroom records, as a finset; this
is the claim-side reading of "the number of distinct storey names among
the classroom records". -/
def distinct_storeys (spaces : List FSpace) : Finset String :=
  ((spaces.filter isClassroomSpace).map storeyLabel).toFinset

/- ------------------------------------------------------------------ -/
/- Classroom-count rule (`class_count_checker.py`)                      -/
/- ------------------------------------------------------------------ -/

/-- One `IfcSpace` as consumed by `_space_is_classroom`
(class_count_checker.py lines 48-59): the six candidate string fields,
`none` for a missing attribute or a pset lookup miss.  Python's
`casefold` is modelled by `toLower` (the fixed term is ASCII). -/
structure CSpace where
  longName : Option String
  name : Option String
  objectType : Option String
  predefinedType : Option String
  psetLongName : Option String
  psetName : Option String
deriving Repr, DecidableEq

/-- Embedding of `_space_is_classroom` (lines 48-59): some field,
normalised, equals `"classroom"` exactly. -/
def space_is_classroom (sp : CSpace) : Bool :=
  [sp.longName, sp.name, sp.objectType, sp.predefinedType,
    sp.psetLongName, sp.psetName].any
    (fun f => match f with
      | some v => normChars v == "classroom".toList
      | none => false)

/-- Embedding of `_count_classrooms` (lines 61-66). -/
def count_classrooms (spaces : List CSpace) : ℕ :=
  spaces.countP (fun sp => space_is_classroom sp)

/-- Embedding of the `SCHOOL_TYPES` table (lines 23-27), reduced to the
`valid_counts` field per selection key. -/
def SCHOOL_TYPES : List (String × List ℕ) :=
  [("1", [6, 9, 12, 15]), ("2", [6, 9, 12, 15]), ("3", [6, 12, 18])]

/-- Lookup of `SCHOOL_TYPES[sel_key]["valid_counts"]` (line 89). -/
def validCountsOf (key : String) : List ℕ :=
  ((SCHOOL_TYPES.find? (fun p => p.1 == key)).map Prod.snd).getD []

/-- Verdict data of `render_class_count_checker` lines 94-107:
the classroom count, the pass test `count in standards` (line 102) and
the permitted list shown by the failure message (line 106). -/
structure ClassCountVerdict where
  count : ℕ
  passed : Bool
  reportedStandards : Option (List ℕ)
deriving Repr, DecidableEq

/-- Embedding of the verdict computation of
`render_class_count_checker` (lines 94-107). -/
def render_class_count (spaces : List CSpace) (selKey : String) : ClassCountVerdict :=
  if count_classrooms spaces ∈ validCountsOf selKey then
    ⟨count_classrooms spaces, true, none⟩
  else ⟨count_classrooms spaces, false, some (validCountsOf selKey)⟩

/- ------------------------------------------------------------------ -/
/- Theorems: C1, C6, C7, C8, C9, C10                                    -/
/- ------------------------------------------------------------------ -/

/-- C1 counterexample: a geometric result of exactly `0.0` is not
reported; with geometric area `Known(0.0)` and fallback area
`Known(5)`, `area_for_id` returns the fallback value `5`, not the
geometric `0`. -/
theorem c1_cex_zero_geom_replaced :
    area_for_id (some 0) (some 5) = some 5 ∧
    area_for_id (some 0) (some 5) ≠ some 0 := by
  decide

/-- C1 (amended): the geometric value takes precedence over the
fallback exactly when it is strictly positive; a geometric result of
`0.0` (or any non-positive value) is discarded and the attribute-based
fallback is used instead, and a missing geometric result also falls
back. -/
theorem c1_area_precedence (g : ℚ) (fb : Option ℚ) :
    (0 < g → area_for_id (some g) fb = some g) ∧
    (g ≤ 0 → area_for_id (some g) fb = fb) ∧
    area_for_id none fb = fb := by
  refine ⟨fun h => ?_, fun h => ?_, rfl⟩
  · simp [area_for_id, h]
  · simp [area_for_id, not_lt.mpr h]

/-- Witness for `c1_area_precedence` at concrete inputs. -/
theorem c1_area_precedence_witness :
    area_for_id (some 2) (some 7) = some 2 ∧
    area_for_id (some 0) (some 7) = some 7 :=
  ⟨(c1_area_precedence 2 (some 7)).1 (by norm_num),
   (c1_area_precedence 0 (some 7)).2.1 (by norm_num)⟩

/-- Helper: every value in the unit table is strictly positive. -/
theorem lengthTable_pos {nm pref : String} {s : ℚ}
    (h : lengthTable nm pref = some s) : 0 < s := by
  unfold lengthTable at h
  split_ifs at h <;> simp_all <;> norm_num [← h]

/-- Helper: the unit scan always yields a strictly positive scale. -/
theorem scanUnits_pos (units : List UnitRec) : 0 < scanUnits units := by
  induction units with
  | nil => norm_num [scanUnits]
  | cons u rest ih =>
    unfold scanUnits
    by_cases hL : u.isLength
    · simp only [hL, if_true]
      cases h : lengthTable u.name u.pref with
      | some s => exact lengthTable_pos h
      | none => exact ih
    · simp only [hL, if_false, Bool.false_eq_true]
      exact ih

/-- C6: the unit-scale resolver returns exactly the fixed table values
(metre with no prefix 1.0, metre/milli 0.001, metre/centi 0.01,
metre/deci 0.1, foot 0.3048), returns 1.0 for every (name, prefix)
combination outside the table and for a missing unit assignment, and
its result is strictly positive on every input. -/
theorem c6_unit_scale_table :
    detect_length_scale_meters [[⟨true, "METRE", ""⟩]] = 1 ∧
    detect_length_scale_meters [[⟨true, "METRE", "MILLI"⟩]] = 1/1000 ∧
    detect_length_scale_meters [[⟨true, "METRE", "CENTI"⟩]] = 1/100 ∧
    detect_length_scale_meters [[⟨true, "METRE", "DECI"⟩]] = 1/10 ∧
    detect_length_scale_meters [[⟨true, "FOOT", ""⟩]] = 3048/10000 ∧
    (∀ nm pref, lengthTable nm pref = none →
      detect_length_scale_meters [[⟨true, nm, pref⟩]] = 1) ∧
    detect_length_scale_meters [] = 1 ∧
    (∀ uas, 0 < detect_length_scale_meters uas) := by
  refine ⟨rfl, rfl, rfl, rfl, rfl, ?_, rfl, ?_⟩
  · intro nm pref h
    simp [detect_length_scale_meters, scanUnits, h]
  · intro uas
    cases uas with
    | nil => norm_num [detect_length_scale_meters]
    | cons ua rest => exact scanUnits_pos ua

/-- Witness for `c6_unit_scale_table`: an unrecognised combination
(yard) yields 1.0, via the sixth conjunct at a concrete input. -/
theorem c6_unit_scale_table_witness :
    lengthTable "YARD" "" = none ∧
    detect_length_scale_meters [[⟨true, "YARD", ""⟩]] = 1 :=
  ⟨by decide, c6_unit_scale_table.2.2.2.2.2.1 "YARD" "" (by decide)⟩

/-- C7: for every staff count and area column the parking rule computes
`requiredSlots = ⌈staff/3⌉`, passes iff the continuous slot count
`totalArea/21` reaches it, reports `slotsUsableWhole = ⌊totalArea/21⌋`,
`shortfallSlots = max 0 (required − usable)` and
`shortfallArea = max 0 (required·21 − totalArea)`, sums unknown areas
as 0, and on `totalArea = 41`, `staff = 9` fails with required 3,
shortfall 2 slots and 22 m² missing. -/
theorem c7_parking_rule (areas : List (Option ℚ)) (staff : ℕ)
    (hpos : ∀ a ∈ areas, 0 ≤ a.getD 0) :
    (render_parking areas staff).reqSlots = ⌈(staff : ℚ) / 3⌉ ∧
    ((render_parking areas staff).ok = true ↔
      (((render_parking areas staff).reqSlots : ℚ) ≤
        (render_parking areas staff).totalArea / 21)) ∧
    (render_parking areas staff).slotsInt =
      ⌊(render_parking areas staff).totalArea / 21⌋ ∧
    (render_parking areas staff).shortSlots =
      max 0 ((render_parking areas staff).reqSlots -
        (render_parking areas staff).slotsInt) ∧
    (render_parking areas staff).shortArea =
      max 0 (((render_parking areas staff).reqSlots : ℚ) * 21 -
        (render_parking areas staff).totalArea) ∧
    (render_parking areas staff).totalArea =
      (areas.map (fun a => a.getD 0)).sum ∧
    ((render_parking [some 41] 9).reqSlots = 3 ∧
      (render_parking [some 41] 9).ok = false ∧
      (render_parking [some 41] 9).shortSlots = 2 ∧
      (render_parking [some 41] 9).shortArea = 22) := by
  have htot : 0 ≤ total_area_of areas := by
    refine List.sum_nonneg ?_
    intro x hx
    obtain ⟨a, ha, rfl⟩ := List.mem_map.mp hx
    exact hpos a ha
  have hif : (if 0 < total_area_of areas then total_area_of areas / SLOT_AREA else 0)
      = total_area_of areas / 21 := by
    rcases eq_or_lt_of_le htot with h0 | h0
    · rw [if_neg (by rw [← h0]; exact lt_irrefl 0), ← h0, zero_div]
    · rw [if_pos h0]; rfl
  have hex : (render_parking [some 41] 9).reqSlots = 3 ∧
      (render_parking [some 41] 9).ok = false ∧
      (render_parking [some 41] 9).shortSlots = 2 ∧
      (render_parking [some 41] 9).shortArea = 22 := by
    have h41 : total_area_of [some (41:ℚ)] = 41 := by
      norm_num [total_area_of]
    have hreq : (⌈((9:ℕ) : ℚ) * REQ_PER_STAFF⌉ : ℤ) = 3 := by
      norm_num [REQ_PER_STAFF]
    refine ⟨hreq, ?_, ?_, ?_⟩
    · show decide ((((⌈((9:ℕ) : ℚ) * REQ_PER_STAFF⌉ : ℤ)) : ℚ) ≤
          if 0 < total_area_of [some 41] then total_area_of [some 41] / SLOT_AREA else 0)
        = false
      rw [hreq, h41, if_pos (by norm_num), decide_eq_false_iff_not]
      norm_num [SLOT_AREA]
    · show max 0 ((⌈((9:ℕ) : ℚ) * REQ_PER_STAFF⌉ : ℤ) -
          ⌊if 0 < total_area_of [some 41] then total_area_of [some 41] / SLOT_AREA else 0⌋) = 2
      rw [hreq, h41, if_pos (by norm_num)]
      rw [show ⌊(41 : ℚ) / SLOT_AREA⌋ = 1 by
        rw [Int.floor_eq_iff]
        norm_num [SLOT_AREA]]
      norm_num
    · show max 0 (((⌈((9:ℕ) : ℚ) * REQ_PER_STAFF⌉ : ℤ) : ℚ) * SLOT_AREA -
          total_area_of [some 41]) = 22
      rw [hreq, h41]
      norm_num [SLOT_AREA]
  refine ⟨?_, ?_, ?_, rfl, rfl, rfl, hex⟩
  · show (⌈(staff : ℚ) * REQ_PER_STAFF⌉ : ℤ) = ⌈(staff : ℚ) / 3⌉
    rw [show REQ_PER_STAFF = 1/3 from rfl, mul_one_div]
  · show decide (((⌈(staff : ℚ) * REQ_PER_STAFF⌉ : ℤ) : ℚ) ≤
        if 0 < total_area_of areas then total_area_of areas / SLOT_AREA else 0) = true ↔ _
    rw [hif, decide_eq_true_eq]
    exact Iff.rfl
  · show ⌊if 0 < total_area_of areas then total_area_of areas / SLOT_AREA else 0⌋ = _
    rw [hif]
    exact rfl

/-- Witness for `c7_parking_rule` at the boundary example. -/
theorem c7_parking_rule_witness :
    (render_parking [some 41] 9).reqSlots = ⌈((9:ℕ) : ℚ) / 3⌉ :=
  (c7_parking_rule [some 41] 9 (by decide)).1

/-- C8: the floor-distribution rule passes iff the number of distinct
storey names among the classroom records is at most `maxAllowed`, and
on failure the reported excess is that number minus `maxAllowed`. -/
theorem c8_floor_distribution (spaces : List FSpace) (maxAllowed : ℕ) :
    ((render_floors spaces maxAllowed).passed = true ↔
      (distinct_storeys spaces).card ≤ maxAllowed) ∧
    ((render_floors spaces maxAllowed).passed = false →
      (render_floors spaces maxAllowed).excess =
        ((distinct_storeys spaces).card : ℤ) - (maxAllowed : ℤ)) ∧
    (render_floors spaces maxAllowed).countLevels = (distinct_storeys spaces).card := by
  have hcard : (classroom_levels spaces).length = (distinct_storeys spaces).card := by
    rw [distinct_storeys, List.card_toFinset, classroom_levels]
  refine ⟨?_, ?_, ?_⟩
  · show decide ((classroom_levels spaces).length ≤ maxAllowed) = true ↔ _
    rw [hcard, decide_eq_true_eq]
  · intro _
    show ((classroom_levels spaces).length : ℤ) - (maxAllowed : ℤ) = _
    rw [hcard]
  · exact hcard

/-- Concrete classroom rows on four distinct storeys. -/
def fourLevelSpaces : List FSpace :=
  [⟨"classroom a", some "L1"⟩, ⟨"classroom b", some "L2"⟩,
   ⟨"classroom c", some "L3"⟩, ⟨"classroom d", some "L4"⟩]

/-- Witness for `c8_floor_distribution`: four distinct storeys against a
limit of three fail with excess 1. -/
theorem c8_floor_distribution_witness :
    (render_floors fourLevelSpaces 3).excess =
      ((distinct_storeys fourLevelSpaces).card : ℤ) - ((3:ℕ) : ℤ) :=
  (c8_floor_distribution fourLevelSpaces 3).2.1 (by decide)

/-- Concrete space whose `LongName` is exactly `"classroom"`. -/
def exClassroom : CSpace := ⟨some "classroom", none, none, none, none, none⟩

/-- C9: the classroom-count rule passes iff the number of spaces
classified as classroom lies in the selected school type's permitted
set, the full permitted set is reported on failure, and on the fixed
permitted set {6, 9, 12, 15} a count of 9 passes while a count of 10
fails and reports the whole set. -/
theorem c9_class_count (spaces : List CSpace) (key : String) :
    ((render_class_count spaces key).passed = true ↔
       count_classrooms spaces ∈ validCountsOf key) ∧
    ((render_class_count spaces key).passed = false →
       (render_class_count spaces key).reportedStandards = some (validCountsOf key)) ∧
    (render_class_count spaces key).count = count_classrooms spaces ∧
    (render_class_count (List.replicate 9 exClassroom) "1").passed = true ∧
    (render_class_count (List.replicate 10 exClassroom) "1").passed = false ∧
    (render_class_count (List.replicate 10 exClassroom) "1").reportedStandards =
      some [6, 9, 12, 15] := by
  refine ⟨?_, ?_, ?_, by decide, by decide, by decide⟩
  · unfold render_class_count
    split_ifs with h <;> simp [h]
  · unfold render_class_count
    split_ifs with h <;> simp [h]
  · unfold render_class_count
    split_ifs with h <;> simp

/-- Witness for `c9_class_count`: ten exact-match classrooms fail for
school type 1 and the permitted set is reported in full. -/
theorem c9_class_count_witness :
    (render_class_count (List.replicate 10 exClassroom) "1").reportedStandards =
      some (validCountsOf "1") :=
  (c9_class_count (List.replicate 10 exClassroom) "1").2.1 (by decide)

/-- Concrete classroom rows on three distinct storeys. -/
def threeLevelSpaces : List FSpace :=
  [⟨"classroom a", some "L1"⟩, ⟨"classroom b", some "L2"⟩,
   ⟨"classroom c", some "L3"⟩]

/-- C10: a classroom record whose storey is unresolved contributes the
placeholder level `"(No storey)"` to the level set, and such a record
alone can flip the floor-distribution verdict: three resolved storeys
pass with limit 3, adding one unresolved record fails. -/
theorem c10_no_storey_level (spaces : List FSpace)
    (h : ∃ sp ∈ spaces, isClassroomSpace sp = true ∧ sp.storeyName = none) :
    "(No storey)" ∈ classroom_levels spaces ∧
    (render_floors threeLevelSpaces 3).passed = true ∧
    (render_floors (threeLevelSpaces ++ [⟨"classroom d", none⟩]) 3).passed = false := by
  refine ⟨?_, by decide, by decide⟩
  obtain ⟨sp, hsp, hcls, hnone⟩ := h
  unfold classroom_levels
  rw [List.mem_dedup]
  refine List.mem_map.mpr ⟨sp, List.mem_filter.mpr ⟨hsp, hcls⟩, ?_⟩
  simp [storeyLabel, hnone]

/-- Witness for `c10_no_storey_level` on the concrete flipped model. -/
theorem c10_no_storey_level_witness :
    "(No storey)" ∈ classroom_levels (threeLevelSpaces ++ [⟨"classroom d", none⟩]) :=
  (c10_no_storey_level (threeLevelSpaces ++ [⟨"classroom d", none⟩]) (by decide)).1

/- ------------------------------------------------------------------ -/
/- Storey resolution (`_storey_of_space`, floors_checker.py lines      -/
/- 24-56 and the identical copy at parking_checker.py lines 146-177)   -/
/- ------------------------------------------------------------------ -/

/-- One hierarchy participant as seen by `_storey_of_space`: a stable
identity (`id(st_)` in Python), the `is_a("IfcBuildingStorey")` test,
the decomposition parent `Decomposes[0].RelatingObject` (`none` when
`Decomposes` is absent or empty) and the containment parent
`ifcopenshell.util.element.get_container(...)` (`none` when there is no
container), both given by identity. -/
structure HNode where
  nid : ℕ
  isStorey : Bool
  decompParent : Option ℕ
  container : Option ℕ
deriving Repr, DecidableEq

/-- Outcome of one `while st_ and id(st_) not in seen:` loop of
`_storey_of_space`: the storey found (`res`), the visited-identity set
(`seen`, as a list built head-first) and `ok = true` when the loop
exited normally; `ok = false` marks exhaustion of the artificial fuel
(the Python loop has no fuel, and `walkDecAux_ok` below shows the fuel
`walkFuel g` is never exhausted, so the embedding is faithful). -/
structure WalkOut where
  res : Option ℕ
  seen : List ℕ
  ok : Bool
deriving Repr, DecidableEq

/-- Resolution of a node identity in the model, the embedding of
following an object reference.  In Python the walked value is the
object itself, so a dangling identity cannot occur; here a failed
lookup ends the walk exactly like a missing parent. -/
def findNode (g : List HNode) (i : ℕ) : Option HNode :=
  g.find? (fun n => n.nid == i)

/-- Embedding of the walk loop of `_storey_of_space` (floors_checker.py
lines 30-38 and 45-53): stop on a falsy node or a revisited identity,
record the identity, return the node if it is a storey, otherwise
follow `Decomposes[0].RelatingObject`. -/
def walkDecAux (g : List HNode) : Option ℕ → List ℕ → ℕ → WalkOut
  | _, seen, 0 => ⟨none, seen, false⟩
  | none, seen, _ + 1 => ⟨none, seen, true⟩
  | some i, seen, fuel + 1 =>
    if i ∈ seen then ⟨none, seen, true⟩
    else
      match findNode g i with
      | none => ⟨none, seen, true⟩
      | some n =>
        if n.isStorey then ⟨some i, i :: seen, true⟩
        else walkDecAux g n.decompParent (i :: seen) fuel

/-- Fuel sufficient for any walk over `g` (proved by `walkDecAux_ok`). -/
def walkFuel (g : List HNode) : ℕ := g.length + 1

/-- Embedding of `_storey_of_space` (floors_checker.py lines 24-56):
first, if the space has a decomposition parent (`if decomp:`), walk from
that parent following decomposition edges; if no storey was found,
start again from `get_container(space)` — but the second loop also
follows `Decomposes` edges (lines 52-53), one containment step and then
decomposition. -/
def storey_of_space (g : List HNode) (s : HNode) : Option ℕ :=
  match s.decompParent with
  | some p =>
    match (walkDecAux g (some p) [] (walkFuel g)).res with
    | some sto => some sto
    | none => (walkDecAux g s.container [] (walkFuel g)).res
  | none => (walkDecAux g s.container [] (walkFuel g)).res

/-- Walk loop following only containment edges.  Modelled from the
spec: "start at the space, follow the chosen parent-edge kind
repeatedly" for the containment retry; this loop does not exist in the
source, whose second loop follows decomposition edges after one
containment step. -/
def walkConAux (g : List HNode) : Option ℕ → List ℕ → ℕ → WalkOut
  | _, seen, 0 => ⟨none, seen, false⟩
  | none, seen, _ + 1 => ⟨none, seen, true⟩
  | some i, seen, fuel + 1 =>
    if i ∈ seen then ⟨none, seen, true⟩
    else
      match findNode g i with
      | none => ⟨none, seen, true⟩
      | some n =>
        if n.isStorey then ⟨some i, i :: seen, true⟩
        else walkConAux g n.container (i :: seen) fuel

/-- Modelled from the spec (§4.2): the resolver as the spec words it —
each walk starts at the space and follows only the chosen parent-edge
kind, decomposition first, containment on retry.  For comparison with
`storey_of_space`. -/
def spec_storey_of (g : List HNode) (s : HNode) : Option ℕ :=
  match (walkDecAux g (some s.nid) [] (walkFuel g)).res with
  | some sto => some sto
  | none => (walkConAux g (some s.nid) [] (walkFuel g)).res

/-- Helper: a successful lookup returns a member of the model carrying
the looked-up identity. -/
theorem findNode_mem_nid {g : List HNode} {i : ℕ} {n : HNode}
    (h : findNode g i = some n) : n ∈ g ∧ n.nid = i := by
  refine ⟨List.mem_of_find?_eq_some h, ?_⟩
  have := List.find?_some h
  simpa using this

/-- Helper: the walk returns its visited list unchanged from a falsy
start. -/
theorem walkDecAux_none (g : List HNode) (seen : List ℕ) (fuel : ℕ) :
    (walkDecAux g none seen fuel).seen = seen := by
  cases fuel <;> rfl

/-- Termination of the walk loop: as soon as the fuel exceeds the
number of node identities not yet visited, the loop exits normally —
the cycle-detection set alone bounds the iteration count. -/
theorem walkDecAux_ok (g : List HNode) :
    ∀ (fuel : ℕ) (cur : Option ℕ) (seen : List ℕ),
      ((g.map HNode.nid).toFinset \ seen.toFinset).card < fuel →
      (walkDecAux g cur seen fuel).ok = true := by
  intro fuel
  induction fuel with
  | zero => intro cur seen h; omega
  | succ f ih =>
    intro cur seen h
    match cur with
    | none => rfl
    | some i =>
      rw [walkDecAux]
      by_cases hmem : i ∈ seen
      · simp [hmem]
      · simp only [hmem, if_false]
        cases hfind : findNode g i with
        | none => rfl
        | some n =>
          by_cases hsto : n.isStorey
          · simp [hsto]
          · simp only [hsto, if_false, Bool.false_eq_true]
            apply ih
            obtain ⟨hg, hnid⟩ := findNode_mem_nid hfind
            have hiS : i ∈ (g.map HNode.nid).toFinset := by
              rw [List.mem_toFinset, List.mem_map]
              exact ⟨n, hg, hnid⟩
            have hi2 : i ∈ (g.map HNode.nid).toFinset \ seen.toFinset := by
              rw [Finset.mem_sdiff]
              exact ⟨hiS, by simpa [List.mem_toFinset] using hmem⟩
            have hsub : (g.map HNode.nid).toFinset \ (i :: seen).toFinset ⊆
                ((g.map HNode.nid).toFinset \ seen.toFinset).erase i := by
              intro x hx
              rw [Finset.mem_sdiff, List.toFinset_cons, Finset.mem_insert] at hx
              rw [Finset.mem_erase, Finset.mem_sdiff]
              push_neg at hx
              exact ⟨hx.2.1, hx.1, hx.2.2⟩
            have hlt := Finset.card_le_card hsub
            rw [Finset.card_erase_of_mem hi2] at hlt
            have hpos : 0 < ((g.map HNode.nid).toFinset \ seen.toFinset).card :=
              Finset.card_pos.mpr ⟨i, hi2⟩
            omega

/-- Helper: in a model with no storey node the walk never reports a
storey. -/
theorem walkDecAux_res_none (g : List HNode)
    (hns : ∀ n ∈ g, n.isStorey = false) :
    ∀ (fuel : ℕ) (cur : Option ℕ) (seen : List ℕ),
      (walkDecAux g cur seen fuel).res = none := by
  intro fuel
  induction fuel with
  | zero => intro cur seen; cases cur <;> rfl
  | succ f ih =>
    intro cur seen
    cases cur with
    | none => rfl
    | some i =>
      rw [walkDecAux]
      by_cases hmem : i ∈ seen
      · simp [hmem]
      · simp only [hmem, if_false]
        cases hfind : findNode g i with
        | none => rfl
        | some n =>
          have hsto : n.isStorey = false := hns n (findNode_mem_nid hfind).1
          simp only [hsto, if_false, Bool.false_eq_true]
          exact ih n.decompParent (i :: seen)

/-- Helper: the visited list stays duplicate-free and drawn from the
model's identities. -/
theorem walkDecAux_seen_inv (g : List HNode) :
    ∀ (fuel : ℕ) (cur : Option ℕ) (seen : List ℕ),
      seen.Nodup → (∀ x ∈ seen, x ∈ g.map HNode.nid) →
      (walkDecAux g cur seen fuel).seen.Nodup ∧
      (∀ x ∈ (walkDecAux g cur seen fuel).seen, x ∈ g.map HNode.nid) := by
  intro fuel
  induction fuel with
  | zero => intro cur seen h1 h2; cases cur <;> exact ⟨h1, h2⟩
  | succ f ih =>
    intro cur seen h1 h2
    cases cur with
    | none => exact ⟨h1, h2⟩
    | some i =>
      rw [walkDecAux]
      by_cases hmem : i ∈ seen
      · rw [if_pos hmem]
        exact ⟨h1, h2⟩
      · rw [if_neg hmem]
        cases hfind : findNode g i with
        | none => exact ⟨h1, h2⟩
        | some n =>
          dsimp only
          obtain ⟨hg, hnid⟩ := findNode_mem_nid hfind
          have hcons1 : (i :: seen).Nodup := List.nodup_cons.mpr ⟨hmem, h1⟩
          have hcons2 : ∀ x ∈ i :: seen, x ∈ g.map HNode.nid := by
            intro x hx
            rcases List.mem_cons.mp hx with rfl | hx'
            · exact List.mem_map.mpr ⟨n, hg, hnid⟩
            · exact h2 x hx'
          by_cases hsto : n.isStorey
          · rw [if_pos hsto]
            exact ⟨hcons1, hcons2⟩
          · rw [if_neg hsto]
            exact ih n.decompParent (i :: seen) hcons1 hcons2

/-- C3 (amended): each storey-resolution walk visits every node
identity at most once, so the number of visited nodes is bounded by the
size of the model graph — there is no fixed graph-independent cap (see
the counterexample), the bound is the visited set itself. -/
theorem c3_visits_bounded_by_graph (g : List HNode) (cur : Option ℕ) (fuel : ℕ) :
    (walkDecAux g cur [] fuel).seen.length ≤ g.length := by
  obtain ⟨hnd, hsub⟩ := walkDecAux_seen_inv g fuel cur [] List.nodup_nil (by simp)
  calc (walkDecAux g cur [] fuel).seen.length
      = (walkDecAux g cur [] fuel).seen.toFinset.card :=
        (List.toFinset_card_of_nodup hnd).symm
    _ ≤ (g.map HNode.nid).toFinset.card := by
        refine Finset.card_le_card ?_
        intro x hx
        rw [List.mem_toFinset] at hx ⊢
        exact hsub x hx
    _ ≤ (g.map HNode.nid).length := List.toFinset_card_le _
    _ = g.length := List.length_map _ _

/-- Chain model: node `i` decomposes into node `i+1`, no storeys. -/
def chainG (n : ℕ) : List HNode :=
  (List.range n).map
    (fun i => ⟨i, false, if i + 1 < n then some (i + 1) else none, none⟩)

/-- Helper: searching an identity-indexed list of nodes. -/
theorem find?_map_range (f : ℕ → HNode) (hf : ∀ i, (f i).nid = i) (n k : ℕ) :
    List.find? (fun nd => nd.nid == k) ((List.range n).map f) =
      if k < n then some (f k) else none := by
  induction n with
  | zero => simp
  | succ m ih =>
    rw [List.range_succ, List.map_append, List.find?_append, ih]
    rcases Nat.lt_or_ge k m with hkm | hkm
    · rw [if_pos hkm, if_pos (by omega)]
      rfl
    · rw [if_neg (by omega)]
      by_cases hk : k = m
      · subst hk
        simp [hf]
      · rw [if_neg (by omega)]
        simp [hf, hk]
        omega

/-- Helper: lookup in the chain model. -/
theorem findNode_chainG (n k : ℕ) (hk : k < n) :
    findNode (chainG n) k =
      some ⟨k, false, if k + 1 < n then some (k + 1) else none, none⟩ := by
  rw [chainG, findNode, find?_map_range _ (fun i => rfl), if_pos hk]

/-- Helper: walking the chain from node `k` visits exactly the
remaining `n - k` nodes. -/
theorem chainG_walk_len (n : ℕ) :
    ∀ (fuel k : ℕ) (seen : List ℕ), k < n → n - k ≤ fuel →
      (∀ j ∈ seen, j < k) →
      (walkDecAux (chainG n) (some k) seen fuel).seen.length =
        seen.length + (n - k) := by
  intro fuel
  induction fuel with
  | zero => intro k seen hk hf _; omega
  | succ f ih =>
    intro k seen hk hf hseen
    have hmem : k ∉ seen := fun h => lt_irrefl k (hseen k h)
    rw [walkDecAux, if_neg hmem, findNode_chainG n k hk]
    dsimp only
    rw [if_neg (by simp)]
    by_cases hk1 : k + 1 < n
    · rw [if_pos hk1]
      have hseen' : ∀ j ∈ k :: seen, j < k + 1 := by
        intro j hj
        rcases List.mem_cons.mp hj with rfl | hj'
        · omega
        · exact Nat.lt_succ_of_lt (hseen j hj')
      rw [ih (k + 1) (k :: seen) hk1 (by omega) hseen']
      simp only [List.length_cons]
      omega
    · rw [if_neg hk1, walkDecAux_none]
      simp only [List.length_cons]
      omega

/-- C3 counterexample: the claim as stated — some fixed cap bounds the
number of visited nodes over all graphs — is false: a decomposition
chain of `cap + 1` fresh nodes makes the walk visit `cap + 1` nodes. -/
theorem c3_cex_no_fixed_cap :
    ¬ ∃ cap : ℕ, ∀ (g : List HNode) (cur : Option ℕ),
        (walkDecAux g cur [] (walkFuel g)).seen.length ≤ cap := by
  rintro ⟨cap, hcap⟩
  have hlen : (chainG (cap + 1)).length = cap + 1 := by
    rw [chainG, List.length_map, List.length_range]
  have h := hcap (chainG (cap + 1)) (some 0)
  rw [chainG_walk_len (cap + 1) (walkFuel (chainG (cap + 1))) 0 []
      (by omega) (by rw [walkFuel, hlen]; omega) (by simp)] at h
  norm_num at h

/-- The space of the C4 counterexample model: no decomposition parent,
contained in node 1. -/
def exSpaceNode : HNode := ⟨0, false, none, some 1⟩

/-- C4 counterexample model: the space's container (node 1) is not a
storey and has no further container, but node 1 decomposes into the
storey node 2. -/
def exG : List HNode := [exSpaceNode, ⟨1, false, some 2, none⟩, ⟨2, true, none, none⟩]

/-- C4 counterexample: on `exG` the source resolver finds storey 2 by
following a decomposition edge from the container, while the resolver
described by the claim (each walk follows only its own edge kind) finds
no storey at all. -/
theorem c4_cex_second_walk_kind :
    storey_of_space exG exSpaceNode = some 2 ∧
    spec_storey_of exG exSpaceNode = none := by
  decide

/-- C4 (amended): the resolver tries the decomposition walk first and
returns its storey when it finds one; only when that walk yields no
storey does it retry from the space's containment parent — but the
retry walk follows decomposition edges after that single containment
step, not containment edges throughout. -/
theorem c4_walk_order (g : List HNode) (s : HNode) :
    (∀ sto, (walkDecAux g s.decompParent [] (walkFuel g)).res = some sto →
      storey_of_space g s = some sto) ∧
    ((walkDecAux g s.decompParent [] (walkFuel g)).res = none →
      storey_of_space g s = (walkDecAux g s.container [] (walkFuel g)).res) := by
  constructor
  · intro sto hsto
    cases hd : s.decompParent with
    | none =>
      rw [hd, walkFuel] at hsto
      simp [walkDecAux] at hsto
    | some p =>
      rw [hd] at hsto
      rw [storey_of_space, hd]
      dsimp only
      rw [hsto]
  · intro hnone
    cases hd : s.decompParent with
    | none => rw [storey_of_space, hd]
    | some p =>
      rw [hd] at hnone
      rw [storey_of_space, hd]
      dsimp only
      rw [hnone]

/-- Witness for `c4_walk_order`: on the counterexample model the
decomposition walk is empty, so the result is the retry walk's. -/
theorem c4_walk_order_witness :
    storey_of_space exG exSpaceNode =
      (walkDecAux exG exSpaceNode.container [] (walkFuel exG)).res :=
  (c4_walk_order exG exSpaceNode).2 (by decide)

/-- C5: both walks of the resolver always exit normally within the fuel
`walkFuel g` — the visited set bounds the iteration count on every
graph, cyclic ones included — and on a model with no storey the
resolver returns `none` instead of looping or failing. -/
theorem c5_cycle_walk (g : List HNode) (s : HNode) :
    (walkDecAux g s.decompParent [] (walkFuel g)).ok = true ∧
    (walkDecAux g s.container [] (walkFuel g)).ok = true ∧
    ((∀ n ∈ g, n.isStorey = false) → storey_of_space g s = none) := by
  have hok : ∀ cur : Option ℕ, (walkDecAux g cur [] (walkFuel g)).ok = true := by
    intro cur
    apply walkDecAux_ok
    rw [walkFuel]
    calc ((g.map HNode.nid).toFinset \ ([] : List ℕ).toFinset).card
        ≤ (g.map HNode.nid).toFinset.card := Finset.card_le_card Finset.sdiff_subset
      _ ≤ (g.map HNode.nid).length := List.toFinset_card_le _
      _ = g.length := List.length_map _ _
      _ < g.length + 1 := Nat.lt_succ_self _
  refine ⟨hok _, hok _, ?_⟩
  intro hns
  rw [storey_of_space]
  cases s.decompParent with
  | none => exact walkDecAux_res_none g hns _ _ _
  | some p =>
    dsimp only
    rw [walkDecAux_res_none g hns _ _ _]
    exact walkDecAux_res_none g hns _ _ _

/-- Two-node decomposition cycle with no storey, the spec's pathological
example. -/
def cycG : List HNode := [⟨0, false, some 1, none⟩, ⟨1, false, some 0, none⟩]

/-- Witness for `c5_cycle_walk` on the two-node decomposition cycle. -/
theorem c5_cycle_walk_witness :
    storey_of_space cycG ⟨0, false, some 1, none⟩ = none :=
  (c5_cycle_walk cycG ⟨0, false, some 1, none⟩).2.2 (by decide)

/- ------------------------------------------------------------------ -/
/- Mesh footprint (`_triangles_from_shape`, parking_checker.py lines   -/
/- 85-95, and `_space_geom_area_m2`, lines 97-114)                     -/
/- ------------------------------------------------------------------ -/

/-- A projected 2D point with exact rational coordinates standing for
the source's float coordinates. -/
abbrev QPoint := ℚ × ℚ

/-- One triangle of the projected mesh, as appended at line 94. -/
abbrev QTriangle := QPoint × QPoint × QPoint

/-- Embedding of `_triangles_from_shape` (lines 85-95): walk the face
index buffer three indices at a time; for each vertex read `x` and `y`
from the flat vertex buffer (`verts[3*i]`, `verts[3*i+1]`), multiply by
`scale`, and drop the vertical coordinate (the `z2*0 + y2*scale` at
line 94 is `y2*scale`).  An out-of-range index reads 0, a case the
mesher never produces. -/
def triangles_from_shape (verts : List ℚ) (scale : ℚ) : List ℕ → List QTriangle
  | i0 :: i1 :: i2 :: rest =>
    ((verts.getD (3*i0) 0 * scale, verts.getD (3*i0+1) 0 * scale),
     (verts.getD (3*i1) 0 * scale, verts.getD (3*i1+1) 0 * scale),
     (verts.getD (3*i2) 0 * scale, verts.getD (3*i2+1) 0 * scale))
    :: triangles_from_shape verts scale rest
  | _ => []

/-- Twice the signed area of a projected triangle; it vanishes exactly
on the degenerate triangles (collinear or coincident vertices). -/
def crossZ (t : QTriangle) : ℚ :=
  (t.2.1.1 - t.1.1) * (t.2.2.2 - t.1.2) - (t.2.1.2 - t.1.2) * (t.2.2.1 - t.1.1)

/-- A degenerate triangle: zero signed area. -/
def degenTri (t : QTriangle) : Prop := crossZ t = 0

/-- The projected point in the real plane. -/
def rPt (p : QPoint) : ℝ × ℝ := ((p.1 : ℝ), (p.2 : ℝ))

/-- The point set of `Polygon(t)` for one triangle `t` (line 108): the
filled triangle, i.e. the convex hull of its three vertices. -/
def triSet (t : QTriangle) : Set (ℝ × ℝ) :=
  convexHull ℝ {rPt t.1, rPt t.2.1, rPt t.2.2}

/-- The point set of `unary_union(polys)` (line 111): the union of the
triangle polygons, one `Polygon(t)` per triangle of
`_triangles_from_shape` — no triangle is filtered out. -/
def meshSet : List QTriangle → Set (ℝ × ℝ)
  | [] => ∅
  | t :: ts => triSet t ∪ meshSet ts

/-- The footprint area `float(merged.area)` (line 112): the Lebesgue
measure of the union of the triangle polygons. -/
noncomputable def geomArea (tris : List QTriangle) : ℝ≥0∞ :=
  volume (meshSet tris)

/-- Vertex buffer of the counterexample mesh: vertices 0-2 are
collinear on the x-axis, vertices 3-5 form a proper triangle (their `z`
is 5, discarded by the projection). -/
def cexVerts : List ℚ := [0,0,0, 1,0,0, 2,0,0, 0,0,5, 3,0,5, 0,4,5]

/-- Face index buffer of the counterexample mesh: two triangles. -/
def cexFaces : List ℕ := [0, 1, 2, 3, 4, 5]

/-- C2 counterexample: the degenerate triangle is not excluded before
the union step — `_triangles_from_shape` returns it and
`_space_geom_area_m2` turns every returned triangle into a polygon of
the union (`meshSet`), the degenerate one included. -/
theorem c2_cex_degenerate_not_excluded :
    triangles_from_shape cexVerts 1 cexFaces =
      [((0,0),(1,0),(2,0)), ((0,0),(3,0),(0,4))] ∧
    degenTri ((0,0),(1,0),(2,0)) ∧
    ¬ degenTri ((0,0),(3,0),(0,4)) ∧
    meshSet (triangles_from_shape cexVerts 1 cexFaces) =
      triSet ((0,0),(1,0),(2,0)) ∪ meshSet [((0,0),(3,0),(0,4))] := by
  have hlist : triangles_from_shape cexVerts 1 cexFaces =
      [((0,0),(1,0),(2,0)), ((0,0),(3,0),(0,4))] := by
    norm_num [triangles_from_shape, cexVerts, cexFaces]
  refine ⟨hlist, by norm_num [degenTri, crossZ], by norm_num [degenTri, crossZ], ?_⟩
  rw [hlist]
  rfl

/-- Helper: a zero cross product makes the three real vertices
collinear. -/
theorem collinear_of_crossZ_eq_zero {t : QTriangle} (h : degenTri t) :
    Collinear ℝ ({rPt t.1, rPt t.2.1, rPt t.2.2} : Set (ℝ × ℝ)) := by
  obtain ⟨⟨a1, a2⟩, ⟨b1, b2⟩, ⟨c1, c2⟩⟩ := t
  have hq : (b1 - a1) * (c2 - a2) - (b2 - a2) * (c1 - a1) = 0 := h
  have hr : ((b1:ℝ) - a1) * ((c2:ℝ) - a2) = ((b2:ℝ) - a2) * ((c1:ℝ) - a1) := by
    have hcast := congrArg (fun q : ℚ => (q : ℝ)) hq
    push_cast at hcast
    linarith
  simp only [rPt]
  refine (collinear_iff_of_mem (Set.mem_insert _ _)).mpr ?_
  by_cases hb1 : (b1 : ℝ) = (a1 : ℝ)
  · by_cases hb2 : (b2 : ℝ) = (a2 : ℝ)
    · refine ⟨((c1:ℝ) - a1, (c2:ℝ) - a2), ?_⟩
      intro p hp
      simp only [Set.mem_insert_iff, Set.mem_singleton_iff] at hp
      rcases hp with rfl | rfl | rfl
      · exact ⟨0, by simp⟩
      · exact ⟨0, by simp [Prod.ext_iff, hb1, hb2]⟩
      · refine ⟨1, ?_⟩
        simp only [Prod.ext_iff, Prod.smul_mk, vadd_eq_add, Prod.mk_add_mk,
          smul_eq_mul, one_mul]
        constructor <;> ring
    · have hb2' : (b2:ℝ) - a2 ≠ 0 := fun hh => hb2 (by linarith)
      have hc1 : (c1 : ℝ) = (a1 : ℝ) := by
        have h0 : ((b2:ℝ) - a2) * ((c1:ℝ) - a1) = 0 := by
          rw [← hr, hb1]
          ring
        rcases mul_eq_zero.mp h0 with h' | h'
        · exact absurd h' hb2'
        · linarith
      refine ⟨((b1:ℝ) - a1, (b2:ℝ) - a2), ?_⟩
      intro p hp
      simp only [Set.mem_insert_iff, Set.mem_singleton_iff] at hp
      rcases hp with rfl | rfl | rfl
      · exact ⟨0, by simp⟩
      · refine ⟨1, ?_⟩
        simp only [Prod.ext_iff, Prod.smul_mk, vadd_eq_add, Prod.mk_add_mk,
          smul_eq_mul, one_mul]
        constructor <;> ring
      · refine ⟨((c2:ℝ) - a2) / ((b2:ℝ) - a2), ?_⟩
        simp only [Prod.ext_iff, Prod.smul_mk, vadd_eq_add, Prod.mk_add_mk,
          smul_eq_mul]
        constructor
        · rw [hb1, hc1]
          ring
        · field_simp
  · have hb1' : (b1:ℝ) - a1 ≠ 0 := fun hh => hb1 (by linarith)
    refine ⟨((b1:ℝ) - a1, (b2:ℝ) - a2), ?_⟩
    intro p hp
    simp only [Set.mem_insert_iff, Set.mem_singleton_iff] at hp
    rcases hp with rfl | rfl | rfl
    · exact ⟨0, by simp⟩
    · refine ⟨1, ?_⟩
      simp only [Prod.ext_iff, Prod.smul_mk, vadd_eq_add, Prod.mk_add_mk,
        smul_eq_mul, one_mul]
      constructor <;> ring
    · refine ⟨((c1:ℝ) - a1) / ((b1:ℝ) - a1), ?_⟩
      simp only [Prod.ext_iff, Prod.smul_mk, vadd_eq_add, Prod.mk_add_mk,
        smul_eq_mul]
      constructor
      · field_simp
      · field_simp
        linear_combination hr

/-- Helper: the convex hull of a collinear set in the plane is a null
set. -/
theorem volume_convexHull_collinear {s : Set (ℝ × ℝ)} (h : Collinear ℝ s) :
    volume (convexHull ℝ s) = 0 := by
  have hspan : affineSpan ℝ s ≠ ⊤ := by
    intro htop
    have hv : vectorSpan ℝ s = ⊤ :=
      AffineSubspace.vectorSpan_eq_top_of_affineSpan_eq_top ℝ (ℝ × ℝ) (ℝ × ℝ) htop
    have hr := h
    rw [collinear_iff_rank_le_one, hv, rank_top] at hr
    rw [show Module.rank ℝ (ℝ × ℝ) = 2 from by
      rw [rank_prod', Module.rank_self]; norm_num] at hr
    exact absurd hr (by norm_num)
  exact measure_mono_null (convexHull_subset_affineSpan s)
    (Measure.addHaar_affineSubspace volume _ hspan)

/-- C2 (amended): degenerate triangles are not filtered out — every
triangle, degenerate or not, becomes a polygon of the union (see the
counterexample) — but a degenerate triangle's polygon is a null set, so
it contributes exactly 0 to the union area: dropping it leaves
`geomArea` unchanged and the remaining valid triangles alone determine
the geometric result.  Raising is out of reach of the embedding: the
whole mesh-to-area computation is wrapped in `try/except` and returns
`None` instead of propagating an exception. -/
theorem c2_degenerate_contributes_zero (t : QTriangle) (ts : List QTriangle)
    (h : degenTri t) : geomArea (t :: ts) = geomArea ts := by
  have h0 : volume (triSet t) = 0 :=
    volume_convexHull_collinear (collinear_of_crossZ_eq_zero h)
  rw [geomArea, geomArea, show meshSet (t :: ts) = triSet t ∪ meshSet ts from rfl]
  refine le_antisymm ?_ (measure_mono Set.subset_union_right)
  calc volume (triSet t ∪ meshSet ts)
      ≤ volume (triSet t) + volume (meshSet ts) := measure_union_le _ _
    _ = volume (meshSet ts) := by rw [h0, zero_add]

/-- Witness for `c2_degenerate_contributes_zero` on the collinear
triangle of the counterexample mesh. -/
theorem c2_degenerate_contributes_zero_witness :
    degenTri ((0,0),(1,0),(2,0)) ∧
    geomArea [((0,0),(1,0),(2,0)), ((0,0),(3,0),(0,4))] =
      geomArea [((0,0),(3,0),(0,4))] :=
  ⟨by norm_num [degenTri, crossZ],
   c2_degenerate_contributes_zero ((0,0),(1,0),(2,0))
    [((0,0),(3,0),(0,4))] (by norm_num [degenTri, crossZ])⟩
